import Mathlib

/-!
Verification of the flexi-logger-datadog batching pipeline.

Shallow embedding of `src/writer.rs` (the batching engine
`DataDogHttpWriter`) and `src/adapter.rs` (the producer-facing
`DataDogAdapter`).  Byte strings are modelled as `List Nat`; the gzip
codec (out of scope per the spec, a pure byte transform) is a parameter
`compress : List Nat → List Nat`; the HTTP sender is a parameter
`oracle : List Nat → Bool` giving each batch's send outcome; wall-clock
time is a `Nat` parameter.  The HTTP client handle and the channel
endpoints of the Rust structs carry no batching logic and are omitted;
channel receptions are modelled as an explicit event stream fed to the
poll-loop step function.
-/

/-- Error taxonomy from `src/error.rs`. -/
inductive Error where
  /-- Error in HTTP communication (`reqwest::Error`). -/
  | HttpError
  /-- IO error. -/
  | IOError
  /-- Error acquiring an internal lock. -/
  | LockError
  /-- Adapter has been shut down and can no longer be operated on. -/
  | AdapterShutdownError
  /-- Internal channel communication error. -/
  | ChannelError
deriving DecidableEq, Repr

/-- State of the writer task, from the struct `DataDogHttpWriter` in
`src/writer.rs` (the `client`, `logs`, `flush_request` and
`flush_response` channel handles carry no batching state and are
modelled as parameters of the operations instead). -/
structure DataDogHttpWriter where
  /-- DataDog api url. -/
  api_host : String
  /-- DataDog api key. -/
  api_key : String
  /-- Query path. -/
  query : List (String × String)
  /-- Maximum log lines in a single request. -/
  max_log_lines : Nat
  /-- Maximum allowed request size. -/
  max_payload_size : Nat
  /-- Maximum size allowed for a single line. -/
  max_line_size : Nat
  /-- How often to flush writer (never if none). -/
  flush_interval : Option Nat
  /-- When logs were last flushed. -/
  last_flushed : Nat
  /-- Log buffer. -/
  buffer_lines : List (List Nat)
  /-- Size of buffer. -/
  buffer_size : Nat
  /-- Whether to compress body. -/
  gzip : Bool
deriving DecidableEq, Repr

namespace DataDogHttpWriter

/-- Wire form of one line, from the body of `batch_requests` in
`src/writer.rs`: append a newline byte; if compression is enabled the
single line (with its newline) is compressed independently. -/
def render (compress : List Nat → List Nat) (gzip : Bool) (line : List Nat) : List Nat :=
  if gzip then compress (line ++ [10]) else line ++ [10]

/-- One iteration of the loop of `batch_requests` (`src/writer.rs`
lines 194-213): skip a line whose rendered form exceeds
`max_line_size`; close the current batch and start a new one when
appending would exceed `max_payload_size`; otherwise append. -/
def batchStep (compress : List Nat → List Nat) (w : DataDogHttpWriter)
    (acc : List (List Nat) × List Nat) (line : List Nat) : List (List Nat) × List Nat :=
  let content := render compress w.gzip line
  if w.max_line_size < content.length then acc
  else if w.max_payload_size < acc.2.length + content.length then
    (acc.1 ++ [acc.2], content)
  else (acc.1, acc.2 ++ content)

/-- `DataDogHttpWriter::batch_requests`: batch buffered lines into
request bodies (the `Result` return of the Rust function only carries
infallible `Vec` write errors and is dropped). -/
def batch_requests (compress : List Nat → List Nat) (w : DataDogHttpWriter) :
    List (List Nat) :=
  let r := w.buffer_lines.foldl (batchStep compress w) ([], [])
  if r.2.isEmpty then r.1 else r.1 ++ [r.2]

/-- Byte length of a group of rendered lines. -/
def groupSize (g : List (List Nat)) : Nat := (g.map List.length).sum

/-- Companion of `batchStep` keeping each batch as the list of rendered
lines it holds rather than as flat bytes; same control flow. -/
def batchGroupStep (compress : List Nat → List Nat) (w : DataDogHttpWriter)
    (acc : List (List (List Nat)) × List (List Nat)) (line : List Nat) :
    List (List (List Nat)) × List (List Nat) :=
  let content := render compress w.gzip line
  if w.max_line_size < content.length then acc
  else if w.max_payload_size < groupSize acc.2 + content.length then
    (acc.1 ++ [acc.2], [content])
  else (acc.1, acc.2 ++ [content])

/-- Companion of `batch_requests` returning each batch as its list of
rendered lines. -/
def batch_groups (compress : List Nat → List Nat) (w : DataDogHttpWriter) :
    List (List (List Nat)) :=
  let r := w.buffer_lines.foldl (batchGroupStep compress w) ([], [])
  if r.2.isEmpty then r.1 else r.1 ++ [r.2]

/-- `DataDogHttpWriter::on_message`: append an incoming line to the
buffer and grow the byte counter (no size check happens here). -/
def on_message (w : DataDogHttpWriter) (message : List Nat) : DataDogHttpWriter :=
  { w with buffer_size := w.buffer_size + message.length,
           buffer_lines := w.buffer_lines ++ [message] }

/-- `DataDogHttpWriter::send`: hand every batch to the HTTP sender
(`try_join_all`), succeeding iff every batch send succeeds; the per
batch outcome is the oracle's verdict.  Returns the batches attempted
and the overall result. -/
def send (compress : List Nat → List Nat) (oracle : List Nat → Bool)
    (w : DataDogHttpWriter) : List (List Nat) × Except Error Unit :=
  let batches := batch_requests compress w
  (batches, if batches.all oracle then .ok () else .error .HttpError)

/-- `DataDogHttpWriter::flush`: no-op unless `buffer_size > 0`;
otherwise send, and — only when `send` succeeded (the `?` operator
returns early on error) — clear the buffer, zero the counter and stamp
`last_flushed`.  Returns the new state, the batches handed to the
sender, and the flush result. -/
def flush (compress : List Nat → List Nat) (oracle : List Nat → Bool)
    (now : Nat) (w : DataDogHttpWriter) :
    DataDogHttpWriter × List (List Nat) × Except Error Unit :=
  if 0 < w.buffer_size then
    let r := send compress oracle w
    match r.2 with
    | .ok _ =>
        ({ w with buffer_lines := [], buffer_size := 0, last_flushed := now },
         r.1, .ok ())
    | .error e => (w, r.1, .error e)
  else (w, [], .ok ())

/-- `DataDogHttpWriter::check_flush`: flush when the buffered line
count equals `max_log_lines` or the byte counter has reached
`max_payload_size`. -/
def check_flush (compress : List Nat → List Nat) (oracle : List Nat → Bool)
    (now : Nat) (w : DataDogHttpWriter) :
    DataDogHttpWriter × List (List Nat) × Except Error Unit :=
  if w.buffer_lines.length = w.max_log_lines then flush compress oracle now w
  else if w.max_payload_size ≤ w.buffer_size then flush compress oracle now w
  else (w, [], .ok ())

/-- `DataDogHttpWriter::drain`: move every line still waiting in the
log channel (`pending`) into the buffer, then `check_flush`. -/
def drain (compress : List Nat → List Nat) (oracle : List Nat → Bool)
    (now : Nat) (pending : List (List Nat)) (w : DataDogHttpWriter) :
    DataDogHttpWriter × List (List Nat) × Except Error Unit :=
  check_flush compress oracle now (pending.foldl on_message w)

/-- `DataDogHttpWriter::time_based_flush`: flush when an interval is
configured and `now > last_flushed + interval`. -/
def time_based_flush (compress : List Nat → List Nat) (oracle : List Nat → Bool)
    (now : Nat) (w : DataDogHttpWriter) :
    DataDogHttpWriter × List (List Nat) × Except Error Unit :=
  match w.flush_interval with
  | some d =>
      if w.last_flushed + d < now then flush compress oracle now w
      else (w, [], .ok ())
  | none => (w, [], .ok ())

/-- One observable channel event of the poll loop in
`DataDogHttpWriter::poll`. -/
inductive Event where
  /-- Top-of-iteration time check (`time_based_flush`) at time `now`. -/
  | tick (now : Nat)
  /-- `receive_logs` got a line. -/
  | line (l : List Nat) (now : Nat)
  /-- `receive_logs` timed out. -/
  | lineTimeout
  /-- `receive_flush` got a flush request; `pending` are the lines
  still queued on the log channel, drained before flushing. -/
  | flushReq (pending : List (List Nat)) (now : Nat)
  /-- `receive_flush` timed out. -/
  | flushTimeout
deriving DecidableEq, Repr

/-- Handling of a flush request in `receive_flush`: drain first; the
`?` on `drain` propagates a drain failure without performing the
explicit flush; otherwise flush and report. -/
def stepFlushReq (compress : List Nat → List Nat) (oracle : List Nat → Bool)
    (now : Nat) (pending : List (List Nat)) (w : DataDogHttpWriter) :
    DataDogHttpWriter × List (List Nat) :=
  let r1 := drain compress oracle now pending w
  match r1.2.2 with
  | .error _ => (r1.1, r1.2.1)
  | .ok _ =>
      let r2 := flush compress oracle now r1.1
      (r2.1, r1.2.1 ++ r2.2.1)

/-- One poll-loop event applied to the writer state, returning the new
state and the batches sent during the event. -/
def step (compress : List Nat → List Nat) (oracle : List Nat → Bool)
    (w : DataDogHttpWriter) : Event → DataDogHttpWriter × List (List Nat)
  | .tick now =>
      let r := time_based_flush compress oracle now w
      (r.1, r.2.1)
  | .line l now =>
      let r := check_flush compress oracle now (on_message w l)
      (r.1, r.2.1)
  | .lineTimeout => (w, [])
  | .flushReq pending now => stepFlushReq compress oracle now pending w
  | .flushTimeout => (w, [])

/-- Run the poll loop over a stream of events, collecting every batch
sent along the way. -/
def run (compress : List Nat → List Nat) (oracle : List Nat → Bool)
    (w : DataDogHttpWriter) : List Event → DataDogHttpWriter × List (List Nat)
  | [] => (w, [])
  | e :: es =>
      let r := step compress oracle w e
      let r2 := run compress oracle r.1 es
      (r2.1, r.2 ++ r2.2)

/-- An event that neither requests a flush nor passes the configured
flush deadline of state `w0`. -/
def quiet (w0 : DataDogHttpWriter) : Event → Bool
  | .tick now =>
      match w0.flush_interval with
      | some d => decide (now ≤ w0.last_flushed + d)
      | none => true
  | .flushReq _ _ => false
  | _ => true

/-- The lines delivered by an event stream, in order. -/
def linesOf : List Event → List (List Nat)
  | [] => []
  | .line l _ :: es => l :: linesOf es
  | .tick _ :: es => linesOf es
  | .lineTimeout :: es => linesOf es
  | .flushReq _ _ :: es => linesOf es
  | .flushTimeout :: es => linesOf es

/-- The buffer byte counter agrees with the buffer contents
(spec §3, Buffer invariant). -/
def SizeInv (w : DataDogHttpWriter) : Prop :=
  w.buffer_size = (w.buffer_lines.map List.length).sum

/-- A split between two consecutive batches happens only at a
batch-size boundary: the earlier batch was closed because appending the
next rendered line (the first line of the later batch) would have
exceeded `max_payload_size` (`src/writer.rs` line 207). -/
def splitAtBoundary (w : DataDogHttpWriter) (g gNext : List (List Nat)) : Prop :=
  w.max_payload_size < groupSize g + gNext.headI.length

end DataDogHttpWriter

/-- A `log::Record` as the adapter consumes it: level, module path and
message arguments. -/
structure LogRecord where
  /-- Log level, already rendered. -/
  level : String
  /-- `record.module_path()`. -/
  module_path : Option String
  /-- `record.args()`, already rendered. -/
  args : String
deriving DecidableEq, Repr

/-- Channel-slot state of the struct `DataDogAdapter` in
`src/adapter.rs`: whether each `Mutex<Option<...>>` slot still holds
its channel ends (`true`) or has been cleared by shutdown (`false`). -/
structure DataDogAdapter where
  /-- Log channel slot (`log_channel`). -/
  log_channel : Bool
  /-- Flush request/response channel slot (`flush_channel`). -/
  flush_channel : Bool
deriving DecidableEq, Repr

namespace DataDogAdapter

/-- Line formatting in `LogWriter::write` for `DataDogAdapter`:
`"{LEVEL} [{module}] {message}"`, with a missing module path rendered
as the empty string. -/
def format_record (r : LogRecord) : String :=
  r.level ++ " [" ++ r.module_path.getD "" ++ "] " ++ r.args

/-- `LogWriter::write` for `DataDogAdapter`: fail with `LockError` if
the (blocking) lock on the log slot is poisoned; fail with
`AdapterShutdownError` if the slot was cleared; otherwise format the
record and enqueue it on the log channel, failing with `ChannelError`
when the writer task is gone.  Returns the result and the lines
enqueued. -/
def write (lockPoisoned : Bool) (engineAlive : Bool) (a : DataDogAdapter)
    (r : LogRecord) : Except Error Unit × List String :=
  if lockPoisoned then (.error .LockError, [])
  else if a.log_channel then
    if engineAlive then (.ok (), [format_record r])
    else (.error .ChannelError, [])
  else (.error .AdapterShutdownError, [])

/-- `LogWriter::flush` for `DataDogAdapter`: `try_lock` the flush slot,
failing fast with `LockError` when the lock is already held; fail with
`AdapterShutdownError` if the slot was cleared; otherwise rendezvous
with the writer task — `engine = none` models a disconnected peer
(`ChannelError`), `engine = some r` the engine's flush result received
over the response channel.  Returns the result and the number of flush
requests sent. -/
def flush (lockHeld : Bool) (engine : Option (Except Error Unit))
    (a : DataDogAdapter) : Except Error Unit × Nat :=
  if lockHeld then (.error .LockError, 0)
  else if a.flush_channel then
    match engine with
    | none => (.error .ChannelError, 0)
    | some r => (r, 1)
  else (.error .AdapterShutdownError, 0)

/-- `LogWriter::shutdown` for `DataDogAdapter` on the uncontended path:
a best-effort `flush` whose error is only logged, then both channel
slots are taken (cleared).  Returns the new adapter state and the
number of flush requests sent. -/
def shutdown (engine : Option (Except Error Unit)) (a : DataDogAdapter) :
    DataDogAdapter × Nat :=
  let r := flush false engine a
  (⟨false, false⟩, r.2)

end DataDogAdapter

/-! ### Concrete states used by counterexamples and witnesses -/

/-- Writer state with one buffered one-byte line; used to exercise
`flush` against a failing sender. -/
def wOneLine : DataDogHttpWriter :=
  { api_host := "", api_key := "", query := [],
    max_log_lines := 1000, max_payload_size := 100, max_line_size := 100,
    flush_interval := none, last_flushed := 0,
    buffer_lines := [[97]], buffer_size := 1, gzip := false }

/-- Writer state whose single buffered line fits `max_line_size` but
whose rendered form exceeds `max_payload_size`. -/
def wWidePayload : DataDogHttpWriter :=
  { api_host := "", api_key := "", query := [],
    max_log_lines := 1000, max_payload_size := 3, max_line_size := 10,
    flush_interval := none, last_flushed := 0,
    buffer_lines := [[97, 98, 97, 98]], buffer_size := 4, gzip := false }

/-- Writer state with an empty buffer and a small line cap. -/
def wSmallCap : DataDogHttpWriter :=
  { api_host := "", api_key := "", query := [],
    max_log_lines := 1000, max_payload_size := 100, max_line_size := 2,
    flush_interval := none, last_flushed := 0,
    buffer_lines := [], buffer_size := 0, gzip := false }

/-- Writer state buffering a single empty line: the buffer is non-empty
while the byte counter is 0. -/
def wEmptyLine : DataDogHttpWriter :=
  { api_host := "", api_key := "", query := [],
    max_log_lines := 1000, max_payload_size := 100, max_line_size := 5,
    flush_interval := none, last_flushed := 0,
    buffer_lines := [[]], buffer_size := 0, gzip := false }

/-- Writer state with two buffered lines, compression disabled. -/
def wTwoLines : DataDogHttpWriter :=
  { api_host := "", api_key := "", query := [],
    max_log_lines := 1000, max_payload_size := 100, max_line_size := 10,
    flush_interval := none, last_flushed := 0,
    buffer_lines := [[97], [98]], buffer_size := 2, gzip := false }

/-- Writer state with an empty buffer and no flush interval; start
state for poll-loop runs. -/
def wIdle : DataDogHttpWriter :=
  { api_host := "", api_key := "", query := [],
    max_log_lines := 3, max_payload_size := 10, max_line_size := 10,
    flush_interval := none, last_flushed := 0,
    buffer_lines := [], buffer_size := 0, gzip := false }

/-- A concrete log record. -/
def recSample : LogRecord :=
  { level := "DEBUG", module_path := none, args := "this is a test" }

namespace DataDogHttpWriter

/-! ### Lemmas on batch construction -/

lemma render_pos (compress : List Nat → List Nat) (g : Bool)
    (hc : g = true → ∀ b, 0 < (compress b).length) :
    ∀ l, 0 < (render compress g l).length := by
  intro l
  unfold render
  cases g with
  | false => simp
  | true => simpa using hc rfl (l ++ [10])

lemma foldl_batchStep_bounded (compress : List Nat → List Nat) (w : DataDogHttpWriter)
    (hlp : w.max_line_size ≤ w.max_payload_size) :
    ∀ (lines : List (List Nat)) (bs : List (List Nat)) (b : List Nat),
      (∀ x ∈ bs, x.length ≤ w.max_payload_size) → b.length ≤ w.max_payload_size →
      (∀ x ∈ (lines.foldl (batchStep compress w) (bs, b)).1,
          x.length ≤ w.max_payload_size) ∧
      (lines.foldl (batchStep compress w) (bs, b)).2.length ≤ w.max_payload_size := by
  intro lines
  induction lines with
  | nil => intro bs b h1 h2; exact ⟨h1, h2⟩
  | cons l ls ih =>
    intro bs b h1 h2
    rw [List.foldl_cons]
    simp only [batchStep]
    split_ifs with hskip hover
    · exact ih bs b h1 h2
    · refine ih _ _ ?_ ?_
      · intro x hx
        rcases List.mem_append.1 hx with hx | hx
        · exact h1 x hx
        · rcases List.mem_singleton.1 hx with rfl
          exact h2
      · exact le_trans (le_of_not_lt hskip) hlp
    · refine ih _ _ h1 ?_
      rw [List.length_append]
      exact le_of_not_lt hover


lemma foldl_batch_group_corr (compress : List Nat → List Nat) (w : DataDogHttpWriter) :
    ∀ (lines : List (List Nat)) (gs : List (List (List Nat))) (g : List (List Nat)),
      lines.foldl (batchStep compress w) (gs.map List.flatten, g.flatten) =
        ((lines.foldl (batchGroupStep compress w) (gs, g)).1.map List.flatten,
         (lines.foldl (batchGroupStep compress w) (gs, g)).2.flatten) := by
  intro lines
  induction lines with
  | nil => intro gs g; rfl
  | cons l ls ih =>
    intro gs g
    rw [List.foldl_cons, List.foldl_cons]
    simp only [batchStep, batchGroupStep]
    have hsize : groupSize g = g.flatten.length := by
      simp [groupSize, List.length_flatten]
    rw [hsize]
    split_ifs with hskip hover
    · exact ih gs g
    · have h := ih (gs ++ [g]) [render compress w.gzip l]
      simpa using h
    · have h := ih gs (g ++ [render compress w.gzip l])
      simpa using h

lemma foldl_groupStep_flatten (compress : List Nat → List Nat) (w : DataDogHttpWriter) :
    ∀ (lines : List (List Nat)) (gs : List (List (List Nat))) (g : List (List Nat)),
      (lines.foldl (batchGroupStep compress w) (gs, g)).1.flatten ++
        (lines.foldl (batchGroupStep compress w) (gs, g)).2 =
      gs.flatten ++ g ++ (lines.map (render compress w.gzip)).filter
        (fun c => c.length ≤ w.max_line_size) := by
  intro lines
  induction lines with
  | nil => intro gs g; simp
  | cons l ls ih =>
    intro gs g
    rw [List.foldl_cons, List.map_cons, List.filter_cons]
    by_cases hskip : w.max_line_size < (render compress w.gzip l).length
    · have hd : decide ((render compress w.gzip l).length ≤ w.max_line_size) = false := by
        simpa using hskip
      rw [hd]
      simp only [Bool.false_eq_true, if_false]
      simp only [batchGroupStep, if_pos hskip]
      exact ih gs g
    · have hd : decide ((render compress w.gzip l).length ≤ w.max_line_size) = true := by
        simpa using le_of_not_lt hskip
      rw [hd]
      simp only [if_true]
      simp only [batchGroupStep, if_neg hskip]
      by_cases hover : w.max_payload_size < groupSize g + (render compress w.gzip l).length
      · rw [if_pos hover]
        have h := ih (gs ++ [g]) [render compress w.gzip l]
        rw [h]
        simp [List.append_assoc]
      · rw [if_neg hover]
        have h := ih gs (g ++ [render compress w.gzip l])
        rw [h]
        simp [List.append_assoc]

lemma foldl_groupStep_fits (compress : List Nat → List Nat) (w : DataDogHttpWriter) :
    ∀ (lines : List (List Nat)) (gs : List (List (List Nat))) (g : List (List Nat)),
      (∀ x ∈ gs, ∀ c ∈ x, c.length ≤ w.max_line_size) →
      (∀ c ∈ g, c.length ≤ w.max_line_size) →
      (∀ x ∈ (lines.foldl (batchGroupStep compress w) (gs, g)).1,
          ∀ c ∈ x, c.length ≤ w.max_line_size) ∧
      (∀ c ∈ (lines.foldl (batchGroupStep compress w) (gs, g)).2,
          c.length ≤ w.max_line_size) := by
  intro lines
  induction lines with
  | nil => intro gs g h1 h2; exact ⟨h1, h2⟩
  | cons l ls ih =>
    intro gs g h1 h2
    rw [List.foldl_cons]
    simp only [batchGroupStep]
    split_ifs with hskip hover
    · exact ih gs g h1 h2
    · refine ih _ _ ?_ ?_
      · intro x hx
        rcases List.mem_append.1 hx with hx | hx
        · exact h1 x hx
        · rcases List.mem_singleton.1 hx with rfl
          exact h2
      · intro c hc
        rcases List.mem_singleton.1 hc with rfl
        exact le_of_not_lt hskip
    · refine ih _ _ h1 ?_
      intro c hc
      rcases List.mem_append.1 hc with hc | hc
      · exact h2 c hc
      · rcases List.mem_singleton.1 hc with rfl
        exact le_of_not_lt hskip

lemma foldl_groupStep_pos (compress : List Nat → List Nat) (w : DataDogHttpWriter)
    (hpos : ∀ l, 0 < (render compress w.gzip l).length) :
    ∀ (lines : List (List Nat)) (gs : List (List (List Nat))) (g : List (List Nat)),
      (∀ c ∈ g, 0 < c.length) →
      (∀ c ∈ (lines.foldl (batchGroupStep compress w) (gs, g)).2, 0 < c.length) := by
  intro lines
  induction lines with
  | nil => intro gs g h; exact h
  | cons l ls ih =>
    intro gs g h
    rw [List.foldl_cons]
    simp only [batchGroupStep]
    split_ifs with hskip hover
    · exact ih gs g h
    · refine ih _ _ ?_
      intro c hc
      rcases List.mem_singleton.1 hc with rfl
      exact hpos l
    · refine ih _ _ ?_
      intro c hc
      rcases List.mem_append.1 hc with hc | hc
      · exact h c hc
      · rcases List.mem_singleton.1 hc with rfl
        exact hpos l

lemma batch_requests_eq_groups (compress : List Nat → List Nat) (w : DataDogHttpWriter)
    (hpos : ∀ l, 0 < (render compress w.gzip l).length) :
    batch_requests compress w = (batch_groups compress w).map List.flatten := by
  have hc := foldl_batch_group_corr compress w w.buffer_lines [] []
  simp only [List.map_nil, List.flatten_nil] at hc
  have hg := foldl_groupStep_pos compress w hpos w.buffer_lines [] [] (by simp)
  simp only [batch_requests, batch_groups]
  rw [hc]
  rcases he : (w.buffer_lines.foldl (batchGroupStep compress w) ([], [])).2 with _ | ⟨c, rest⟩
  · simp
  · rw [he] at hg
    have h0 : 0 < c.length := hg c (List.mem_cons_self c rest)
    have hne : (c :: rest).flatten ≠ [] := by
      rw [List.flatten_cons]
      intro hcc
      rcases List.append_eq_nil.1 hcc with ⟨rfl, -⟩
      simp at h0
    have hif1 : (c :: rest).flatten.isEmpty = false := by
      cases hx : (c :: rest).flatten with
      | nil => exact absurd hx hne
      | cons a as => rfl
    rw [hif1]
    simp [List.map_append]

lemma batch_groups_flatten (compress : List Nat → List Nat) (w : DataDogHttpWriter) :
    (batch_groups compress w).flatten =
      (w.buffer_lines.map (render compress w.gzip)).filter
        (fun c => c.length ≤ w.max_line_size) := by
  have h := foldl_groupStep_flatten compress w w.buffer_lines [] []
  simp only [List.flatten_nil, List.nil_append] at h
  simp only [batch_groups]
  rcases he : (w.buffer_lines.foldl (batchGroupStep compress w) ([], [])).2 with _ | ⟨c, rest⟩
  · rw [he] at h
    simpa using h
  · rw [he] at h
    simp only [List.isEmpty_cons, Bool.false_eq_true, if_false]
    rw [List.flatten_append]
    simpa [List.flatten_cons] using h

lemma batch_groups_fits (compress : List Nat → List Nat) (w : DataDogHttpWriter) :
    ∀ g ∈ batch_groups compress w, ∀ c ∈ g, c.length ≤ w.max_line_size := by
  have h := foldl_groupStep_fits compress w w.buffer_lines [] [] (by simp) (by simp)
  intro g hg
  simp only [batch_groups] at hg
  by_cases he : (w.buffer_lines.foldl (batchGroupStep compress w) ([], [])).2.isEmpty = true
  · rw [if_pos he] at hg
    exact h.1 g hg
  · rw [if_neg he] at hg
    rcases List.mem_append.1 hg with hg | hg
    · exact h.1 g hg
    · rcases List.mem_singleton.1 hg with rfl
      exact h.2

lemma batch_requests_bounded (compress : List Nat → List Nat) (w : DataDogHttpWriter)
    (hlp : w.max_line_size ≤ w.max_payload_size) :
    ∀ b ∈ batch_requests compress w, b.length ≤ w.max_payload_size := by
  have h := foldl_batchStep_bounded compress w hlp w.buffer_lines [] [] (by simp) (by simp)
  intro b hb
  simp only [batch_requests] at hb
  by_cases he : (w.buffer_lines.foldl (batchStep compress w) ([], [])).2.isEmpty = true
  · rw [if_pos he] at hb
    exact h.1 b hb
  · rw [if_neg he] at hb
    rcases List.mem_append.1 hb with hb | hb
    · exact h.1 b hb
    · rcases List.mem_singleton.1 hb with rfl
      exact h.2

lemma foldl_groupStep_chain (compress : List Nat → List Nat) (w : DataDogHttpWriter) :
    ∀ (lines : List (List Nat)) (gs : List (List (List Nat))) (g : List (List Nat)),
      List.Chain' (splitAtBoundary w) gs →
      (∀ x ∈ gs.getLast?, splitAtBoundary w x g) →
      List.Chain' (splitAtBoundary w)
        ((lines.foldl (batchGroupStep compress w) (gs, g)).1) ∧
      (∀ x ∈ (lines.foldl (batchGroupStep compress w) (gs, g)).1.getLast?,
        splitAtBoundary w x (lines.foldl (batchGroupStep compress w) (gs, g)).2) := by
  intro lines
  induction lines with
  | nil => intro gs g h1 h2; exact ⟨h1, h2⟩
  | cons l ls ih =>
    intro gs g h1 h2
    rw [List.foldl_cons]
    simp only [batchGroupStep]
    split_ifs with hskip hover
    · exact ih gs g h1 h2
    · refine ih _ _ ?_ ?_
      · rw [List.chain'_append]
        refine ⟨h1, List.chain'_singleton g, ?_⟩
        intro x hx y hy
        have hyg : g = y := by simpa using hy
        subst hyg
        exact h2 x hx
      · intro x hx
        rw [List.getLast?_concat] at hx
        have hxg : g = x := by simpa using hx
        subst hxg
        simpa [splitAtBoundary] using hover
    · refine ih _ _ h1 ?_
      intro x hx
      have hx2 := h2 x hx
      rcases g with _ | ⟨c, rest⟩
      · have hx2a : w.max_payload_size < groupSize x + 0 := hx2
        show w.max_payload_size < groupSize x + (render compress w.gzip l).length
        omega
      · exact hx2

lemma batch_groups_chain (compress : List Nat → List Nat) (w : DataDogHttpWriter) :
    List.Chain' (splitAtBoundary w) (batch_groups compress w) := by
  have h := foldl_groupStep_chain compress w w.buffer_lines [] []
    List.chain'_nil (by simp)
  simp only [batch_groups]
  by_cases he : (w.buffer_lines.foldl (batchGroupStep compress w) ([], [])).2.isEmpty = true
  · rw [if_pos he]
    exact h.1
  · rw [if_neg he]
    rw [List.chain'_append]
    refine ⟨h.1, List.chain'_singleton _, ?_⟩
    intro x hx y hy
    have hyg : (w.buffer_lines.foldl (batchGroupStep compress w) ([], [])).2 = y := by
      simpa using hy
    rw [← hyg]
    exact h.2 x hx

/-! ### Lemmas on the poll loop and the size invariant -/

lemma quiet_on_message (w : DataDogHttpWriter) (l : List Nat) (e : Event) :
    quiet (on_message w l) e = quiet w e := by
  cases e <;> simp [quiet, on_message]

lemma run_quiet_aux (compress : List Nat → List Nat) (oracle : List Nat → Bool) :
    ∀ (es : List Event) (w : DataDogHttpWriter),
      (∀ e ∈ es, quiet w e = true) →
      w.buffer_lines.length + (linesOf es).length < w.max_log_lines →
      w.buffer_size + ((linesOf es).map List.length).sum < w.max_payload_size →
      (run compress oracle w es).2 = [] ∧
      (run compress oracle w es).1 =
        { w with buffer_lines := w.buffer_lines ++ linesOf es,
                 buffer_size := w.buffer_size + ((linesOf es).map List.length).sum } := by
  intro es
  induction es with
  | nil =>
    intro w hq hcnt hsz
    refine ⟨rfl, ?_⟩
    simp only [run, linesOf, List.append_nil, List.map_nil, List.sum_nil, Nat.add_zero]
  | cons e es ih =>
    intro w hq hcnt hsz
    have hqe : quiet w e = true := hq e (List.mem_cons_self e es)
    have hqes : ∀ x ∈ es, quiet w x = true := fun x hx => hq x (List.mem_cons_of_mem e hx)
    cases e with
    | tick now =>
      have hstep : step compress oracle w (.tick now) = (w, []) := by
        simp only [step, time_based_flush]
        rcases hfi : w.flush_interval with _ | d
        · rfl
        · have hle : now ≤ w.last_flushed + d := by
            have := hqe
            simp only [quiet, hfi] at this
            exact of_decide_eq_true this
          have hnl : ¬ (w.last_flushed + d < now) := by omega
          simp [hnl]
      simp only [run, hstep]
      have h := ih w hqes (by simpa [linesOf] using hcnt) (by simpa [linesOf] using hsz)
      simpa [linesOf] using h
    | line l now =>
      have hlen : (on_message w l).buffer_lines.length = w.buffer_lines.length + 1 := by
        simp [on_message]
      have hsz1 : (on_message w l).buffer_size = w.buffer_size + l.length := by
        simp [on_message]
      have hcnt' : (on_message w l).buffer_lines.length ≠ (on_message w l).max_log_lines := by
        have : (on_message w l).max_log_lines = w.max_log_lines := by simp [on_message]
        rw [hlen, this]
        simp only [linesOf, List.length_cons] at hcnt
        omega
      have hsz' : ¬ ((on_message w l).max_payload_size ≤ (on_message w l).buffer_size) := by
        have : (on_message w l).max_payload_size = w.max_payload_size := by simp [on_message]
        rw [hsz1, this]
        simp only [linesOf, List.map_cons, List.sum_cons] at hsz
        omega
      have hstep : step compress oracle w (.line l now) = (on_message w l, []) := by
        simp only [step, check_flush]
        rw [if_neg hcnt', if_neg hsz']
      simp only [run, hstep]
      have hq' : ∀ x ∈ es, quiet (on_message w l) x = true := by
        intro x hx
        rw [quiet_on_message]
        exact hqes x hx
      have hc' : (on_message w l).buffer_lines.length + (linesOf es).length <
          (on_message w l).max_log_lines := by
        have : (on_message w l).max_log_lines = w.max_log_lines := by simp [on_message]
        rw [hlen, this]
        simp only [linesOf, List.length_cons] at hcnt
        omega
      have hs' : (on_message w l).buffer_size + ((linesOf es).map List.length).sum <
          (on_message w l).max_payload_size := by
        have : (on_message w l).max_payload_size = w.max_payload_size := by simp [on_message]
        rw [hsz1, this]
        simp only [linesOf, List.map_cons, List.sum_cons] at hsz
        omega
      have h := ih (on_message w l) hq' hc' hs'
      refine ⟨by simpa using h.1, ?_⟩
      rw [h.2]
      simp only [on_message, linesOf, List.map_cons, List.sum_cons]
      congr 1
      · simp
      · omega
    | lineTimeout =>
      have hstep : step compress oracle w .lineTimeout = (w, []) := rfl
      simp only [run, hstep]
      have h := ih w hqes (by simpa [linesOf] using hcnt) (by simpa [linesOf] using hsz)
      simpa [linesOf] using h
    | flushReq pending now =>
      exfalso
      simp [quiet] at hqe
    | flushTimeout =>
      have hstep : step compress oracle w .flushTimeout = (w, []) := rfl
      simp only [run, hstep]
      have h := ih w hqes (by simpa [linesOf] using hcnt) (by simpa [linesOf] using hsz)
      simpa [linesOf] using h

lemma SizeInv_on_message (w : DataDogHttpWriter) (l : List Nat) (h : SizeInv w) :
    SizeInv (on_message w l) := by
  simp only [SizeInv, on_message] at h ⊢
  simp [h]

lemma SizeInv_flush (compress : List Nat → List Nat) (oracle : List Nat → Bool)
    (now : Nat) (w : DataDogHttpWriter) (h : SizeInv w) :
    SizeInv (flush compress oracle now w).1 := by
  simp only [flush]
  split_ifs with h1
  · rcases hs : (send compress oracle w).2 with e | v
    · simpa [hs] using h
    · simp [hs, SizeInv]
  · exact h

lemma SizeInv_foldl (pending : List (List Nat)) :
    ∀ (w : DataDogHttpWriter), SizeInv w → SizeInv (pending.foldl on_message w) := by
  induction pending with
  | nil => intro w h; exact h
  | cons p ps ih =>
    intro w h
    rw [List.foldl_cons]
    exact ih _ (SizeInv_on_message w p h)

lemma SizeInv_check_flush (compress : List Nat → List Nat) (oracle : List Nat → Bool)
    (now : Nat) (w : DataDogHttpWriter) (h : SizeInv w) :
    SizeInv (check_flush compress oracle now w).1 := by
  simp only [check_flush]
  split_ifs with h1 h2
  · exact SizeInv_flush compress oracle now w h
  · exact SizeInv_flush compress oracle now w h
  · exact h

lemma SizeInv_drain (compress : List Nat → List Nat) (oracle : List Nat → Bool)
    (now : Nat) (pending : List (List Nat)) (w : DataDogHttpWriter) (h : SizeInv w) :
    SizeInv (drain compress oracle now pending w).1 := by
  simp only [drain]
  exact SizeInv_check_flush compress oracle now _ (SizeInv_foldl pending w h)

end DataDogHttpWriter

namespace DataDogHttpWriter

lemma flush_cases (compress : List Nat → List Nat) (oracle : List Nat → Bool)
    (now : Nat) (w : DataDogHttpWriter) (h : 0 < w.buffer_size) :
    ((batch_requests compress w).all oracle = true ∧
      flush compress oracle now w =
        ({ w with buffer_lines := [], buffer_size := 0, last_flushed := now },
         batch_requests compress w, .ok ())) ∨
    ((batch_requests compress w).all oracle = false ∧
      flush compress oracle now w =
        (w, batch_requests compress w, .error .HttpError)) := by
  rcases hall : (batch_requests compress w).all oracle with _ | _
  · right
    refine ⟨rfl, ?_⟩
    simp [flush, send, if_pos h, hall]
  · left
    refine ⟨rfl, ?_⟩
    simp [flush, send, if_pos h, hall]

/-- C1 (corrected): for every flush of a non-empty buffer the engine
builds batches from the current buffer and hands exactly those batches
to the HTTP sender; when every batch send succeeds the buffer is
cleared, `buffer_size` is reset to 0 and `last_flushed` is set to now,
with an ok result; when any batch send fails the failure is surfaced as
the flush's error result and the buffer is left completely unchanged —
the failed flush's lines are retained, not dropped. -/
theorem flush_clears_only_on_success (compress : List Nat → List Nat)
    (oracle : List Nat → Bool) (now : Nat) (w : DataDogHttpWriter)
    (h : 0 < w.buffer_size) :
    (flush compress oracle now w).2.1 = batch_requests compress w ∧
    ((batch_requests compress w).all oracle = true →
      (flush compress oracle now w).1 =
        { w with buffer_lines := [], buffer_size := 0, last_flushed := now } ∧
      (flush compress oracle now w).2.2 = .ok ()) ∧
    ((batch_requests compress w).all oracle = false →
      (flush compress oracle now w).1 = w ∧
      (flush compress oracle now w).2.2 = .error .HttpError) := by
  rcases flush_cases compress oracle now w h with ⟨hall, heq⟩ | ⟨hall, heq⟩
  · rw [heq]
    refine ⟨rfl, fun _ => ⟨rfl, rfl⟩, fun hf => ?_⟩
    rw [hall] at hf
    simp at hf
  · rw [heq]
    refine ⟨rfl, fun ht => ?_, fun _ => ⟨rfl, rfl⟩⟩
    rw [hall] at ht
    simp at ht

/-- Witness for C1's theorem at a concrete one-line buffer. -/
theorem flush_clears_only_on_success_witness :
    0 < wOneLine.buffer_size ∧
    ((flush (fun x => x) (fun _ => true) 5 wOneLine).2.1 =
        batch_requests (fun x => x) wOneLine ∧
      ((batch_requests (fun x => x) wOneLine).all (fun _ => true) = true →
        (flush (fun x => x) (fun _ => true) 5 wOneLine).1 =
          { wOneLine with buffer_lines := [], buffer_size := 0, last_flushed := 5 } ∧
        (flush (fun x => x) (fun _ => true) 5 wOneLine).2.2 = .ok ()) ∧
      ((batch_requests (fun x => x) wOneLine).all (fun _ => true) = false →
        (flush (fun x => x) (fun _ => true) 5 wOneLine).1 = wOneLine ∧
        (flush (fun x => x) (fun _ => true) 5 wOneLine).2.2 = .error .HttpError)) :=
  ⟨by decide,
   flush_clears_only_on_success (fun x => x) (fun _ => true) 5 wOneLine (by decide)⟩

/-- C1 counterexample: with a failing sender, the failed batch's line
is NOT dropped from the buffer — the state keeps the line and the
counter, refuting the claim that the buffer is cleared after all sends
are attempted even when a send fails. -/
theorem flush_failed_send_keeps_buffer_cex :
    (flush (fun x => x) (fun _ => false) 5 wOneLine).1.buffer_lines = [[97]] ∧
    (flush (fun x => x) (fun _ => false) 5 wOneLine).1.buffer_size = 1 ∧
    (flush (fun x => x) (fun _ => false) 5 wOneLine).2.2 = .error .HttpError ∧
    ([[97]] : List (List Nat)) ≠ [] :=
  ⟨rfl, rfl, rfl, by decide⟩

end DataDogHttpWriter

namespace DataDogHttpWriter

/-- C2 (corrected): provided `max_line_size ≤ max_payload_size` (the
configuration the spec recommends but does not enforce) and the
compressor never returns empty bytes, batch construction yields an
ordered sequence of byte batches, each of length at most
`max_payload_size`, each being the concatenation of rendered lines that
individually fit within `max_line_size`; an oversized rendered line is
never present in any batch and does not prevent subsequent lines from
being placed (the batches flatten to exactly the kept rendered lines in
enqueue order). -/
theorem batching_bounded_and_ordered (compress : List Nat → List Nat)
    (w : DataDogHttpWriter)
    (hlp : w.max_line_size ≤ w.max_payload_size)
    (hcomp : w.gzip = true → ∀ b, 0 < (compress b).length) :
    (∀ b ∈ batch_requests compress w, b.length ≤ w.max_payload_size) ∧
    batch_requests compress w = (batch_groups compress w).map List.flatten ∧
    (∀ g ∈ batch_groups compress w, ∀ c ∈ g, c.length ≤ w.max_line_size) ∧
    (batch_groups compress w).flatten =
      (w.buffer_lines.map (render compress w.gzip)).filter
        (fun c => c.length ≤ w.max_line_size) :=
  ⟨batch_requests_bounded compress w hlp,
   batch_requests_eq_groups compress w (render_pos compress w.gzip hcomp),
   batch_groups_fits compress w,
   batch_groups_flatten compress w⟩

/-- Witness for C2's theorem at a concrete two-line buffer. -/
theorem batching_bounded_and_ordered_witness :
    wTwoLines.max_line_size ≤ wTwoLines.max_payload_size ∧
    ((∀ b ∈ batch_requests (fun x => x) wTwoLines,
        b.length ≤ wTwoLines.max_payload_size) ∧
      batch_requests (fun x => x) wTwoLines =
        (batch_groups (fun x => x) wTwoLines).map List.flatten ∧
      (∀ g ∈ batch_groups (fun x => x) wTwoLines,
        ∀ c ∈ g, c.length ≤ wTwoLines.max_line_size) ∧
      (batch_groups (fun x => x) wTwoLines).flatten =
        (wTwoLines.buffer_lines.map (render (fun x => x) wTwoLines.gzip)).filter
          (fun c => c.length ≤ wTwoLines.max_line_size)) :=
  ⟨by decide,
   batching_bounded_and_ordered (fun x => x) wTwoLines (by decide)
     (fun h => absurd h (by decide))⟩

/-- C2 counterexample: with `max_payload_size = 3` and
`max_line_size = 10` (a configuration the code accepts), a 4-byte line
renders to 5 bytes, fits the line cap, and is emitted as a batch of
length 5 > 3, refuting "every batch has length at most
maxPayloadBytes". -/
theorem batching_exceeds_payload_cex :
    ¬ (∀ b ∈ batch_requests (fun x => x) wWidePayload,
        b.length ≤ wWidePayload.max_payload_size) := by
  decide

/-- C3 (corrected): an incoming line is appended to the buffer
unconditionally — `on_message` pushes every message, oversized or not,
and grows `buffer_size` by its byte length; the `max_line_size` cap is
instead applied at batch construction, where every batch contains only
rendered lines within `max_line_size`. -/
theorem on_message_appends_unconditionally (compress : List Nat → List Nat)
    (w : DataDogHttpWriter) (message : List Nat) :
    on_message w message =
      { w with buffer_lines := w.buffer_lines ++ [message],
               buffer_size := w.buffer_size + message.length } ∧
    (∀ g ∈ batch_groups compress w, ∀ c ∈ g, c.length ≤ w.max_line_size) :=
  ⟨rfl, batch_groups_fits compress w⟩

/-- C3 counterexample: a 3-byte line exceeds `wSmallCap`'s
`max_line_size = 2` yet is appended to the buffer by the intake path,
refuting "an oversized line is never appended to the buffer". -/
theorem oversize_line_buffered_cex :
    wSmallCap.max_line_size < ([97, 97, 97] : List Nat).length ∧
    (on_message wSmallCap [97, 97, 97]).buffer_lines = [[97, 97, 97]] ∧
    (on_message wSmallCap [97, 97, 97]).buffer_size = 3 :=
  ⟨by decide, rfl, rfl⟩

end DataDogHttpWriter

namespace DataDogHttpWriter

/-- C4 (corrected): for every buffer of N ≥ 1 lines of nonzero total
byte size (size counter consistent with the buffer), each line's
rendered form within `max_line_size`, compression disabled, flushing
hands the sender one or more batches which are concatenations of whole
rendered lines and whose concatenated bodies reconstruct the original N
lines in enqueue order, each line followed by a newline, with splits
occurring only at batch-size boundaries: a batch is closed only because
appending the next line would exceed `max_payload_size` (between any
two consecutive batches, the earlier batch's size plus the later
batch's first rendered line exceeds `max_payload_size`). -/
theorem flush_reconstructs_lines (compress : List Nat → List Nat)
    (oracle : List Nat → Bool) (now : Nat) (w : DataDogHttpWriter)
    (hinv : SizeInv w) (hpos : 0 < w.buffer_size) (hg : w.gzip = false)
    (hfit : ∀ l ∈ w.buffer_lines, l.length + 1 ≤ w.max_line_size) :
    (flush compress oracle now w).2.1 = batch_requests compress w ∧
    batch_requests compress w ≠ [] ∧
    batch_requests compress w = (batch_groups compress w).map List.flatten ∧
    (batch_groups compress w).flatten = w.buffer_lines.map (fun l => l ++ [10]) ∧
    (batch_requests compress w).flatten =
      (w.buffer_lines.map (fun l => l ++ [10])).flatten ∧
    List.Chain' (splitAtBoundary w) (batch_groups compress w) := by
  have hrender : ∀ l, 0 < (render compress w.gzip l).length := by
    intro l
    simp [render, hg]
  have hcorr : batch_requests compress w = (batch_groups compress w).map List.flatten :=
    batch_requests_eq_groups compress w hrender
  have h4 : (batch_groups compress w).flatten =
      w.buffer_lines.map (fun l => l ++ [10]) := by
    rw [batch_groups_flatten]
    have hmr : w.buffer_lines.map (render compress w.gzip) =
        w.buffer_lines.map (fun l => l ++ [10]) := by
      apply List.map_congr_left
      intro x hx
      simp [render, hg]
    rw [hmr]
    apply List.filter_eq_self.2
    intro c hc
    rcases List.mem_map.1 hc with ⟨l, hl, rfl⟩
    have := hfit l hl
    simp only [decide_eq_true_eq, List.length_append, List.length_cons, List.length_nil]
    omega
  have hjoin : (batch_requests compress w).flatten =
      (w.buffer_lines.map (fun l => l ++ [10])).flatten := by
    rw [hcorr, ← List.flatten_flatten, h4]
  have hsends : (flush compress oracle now w).2.1 = batch_requests compress w := by
    rcases flush_cases compress oracle now w hpos with ⟨-, heq⟩ | ⟨-, heq⟩ <;> rw [heq]
  have hbl : w.buffer_lines ≠ [] := by
    intro h0
    rw [SizeInv, h0] at hinv
    simp at hinv
    omega
  have hne : batch_requests compress w ≠ [] := by
    intro h0
    have hflat : ((w.buffer_lines.map (fun l => l ++ [10])).flatten) = [] := by
      rw [← hjoin, h0]
      rfl
    rcases hbl2 : w.buffer_lines with _ | ⟨l, ls⟩
    · exact hbl hbl2
    · rw [hbl2] at hflat
      simp at hflat
  exact ⟨hsends, hne, hcorr, h4, hjoin, batch_groups_chain compress w⟩

/-- Witness for C4's theorem at a concrete two-line buffer. -/
theorem flush_reconstructs_lines_witness :
    0 < wTwoLines.buffer_size ∧
    ((flush (fun x => x) (fun _ => true) 3 wTwoLines).2.1 =
        batch_requests (fun x => x) wTwoLines ∧
      batch_requests (fun x => x) wTwoLines ≠ [] ∧
      batch_requests (fun x => x) wTwoLines =
        (batch_groups (fun x => x) wTwoLines).map List.flatten ∧
      (batch_groups (fun x => x) wTwoLines).flatten =
        wTwoLines.buffer_lines.map (fun l => l ++ [10]) ∧
      (batch_requests (fun x => x) wTwoLines).flatten =
        (wTwoLines.buffer_lines.map (fun l => l ++ [10])).flatten ∧
      List.Chain' (splitAtBoundary wTwoLines)
        (batch_groups (fun x => x) wTwoLines)) :=
  ⟨by decide,
   flush_reconstructs_lines (fun x => x) (fun _ => true) 3 wTwoLines rfl
     (by decide) rfl (by decide)⟩

/-- C4 counterexample: a buffer holding one empty line renders to the
single body byte `"\n"`, but `flush` is guarded by `buffer_size > 0`
and sends no batch at all, so the concatenated bodies (empty) do not
reconstruct the buffered line followed by a newline. -/
theorem flush_empty_line_not_reconstructed_cex :
    wEmptyLine.buffer_lines = [[]] ∧
    (flush (fun x => x) (fun _ => true) 0 wEmptyLine).2.1 = [] ∧
    (wEmptyLine.buffer_lines.map (fun l => l ++ [10])).flatten = [10] :=
  ⟨rfl, rfl, rfl⟩

end DataDogHttpWriter

namespace DataDogHttpWriter

/-- C5 (confirmed): as long as every poll-loop event is quiet — no
flush request arrives and no time check passes the configured flush
deadline — and the delivered lines keep the buffered line count below
`max_log_lines` and the buffered byte size below `max_payload_size`,
the engine performs no send at all: the run of the step relation emits
an empty list of batches. -/
theorem no_send_before_trigger (compress : List Nat → List Nat)
    (oracle : List Nat → Bool) (es : List Event) (w : DataDogHttpWriter)
    (hq : ∀ e ∈ es, quiet w e = true)
    (hcnt : w.buffer_lines.length + (linesOf es).length < w.max_log_lines)
    (hsz : w.buffer_size + ((linesOf es).map List.length).sum < w.max_payload_size) :
    (run compress oracle w es).2 = [] :=
  (run_quiet_aux compress oracle es w hq hcnt hsz).1

/-- Witness for C5's theorem on a concrete quiet event stream. -/
theorem no_send_before_trigger_witness :
    (∀ e ∈ [Event.lineTimeout, Event.line [97] 0, Event.tick 99, Event.flushTimeout],
      quiet wIdle e = true) ∧
    (run (fun x => x) (fun _ => true) wIdle
      [Event.lineTimeout, Event.line [97] 0, Event.tick 99, Event.flushTimeout]).2 = [] :=
  ⟨by decide,
   no_send_before_trigger (fun x => x) (fun _ => true)
     [Event.lineTimeout, Event.line [97] 0, Event.tick 99, Event.flushTimeout]
     wIdle (by decide) (by decide) (by decide)⟩

/-- C6 (confirmed): the buffer byte counter equals the sum of the byte
lengths of the buffered lines, and every buffer-mutating operation of
the engine — line intake (`on_message`), flush, and drain — preserves
this invariant. -/
theorem buffer_size_invariant (compress : List Nat → List Nat)
    (oracle : List Nat → Bool) (now : Nat) (pending : List (List Nat))
    (w : DataDogHttpWriter) (l : List Nat) (h : SizeInv w) :
    SizeInv (on_message w l) ∧
    SizeInv (flush compress oracle now w).1 ∧
    SizeInv (drain compress oracle now pending w).1 :=
  ⟨SizeInv_on_message w l h,
   SizeInv_flush compress oracle now w h,
   SizeInv_drain compress oracle now pending w h⟩

/-- Witness for C6's theorem at a concrete consistent state. -/
theorem buffer_size_invariant_witness :
    SizeInv wTwoLines ∧
    (SizeInv (on_message wTwoLines [99]) ∧
      SizeInv (flush (fun x => x) (fun _ => true) 4 wTwoLines).1 ∧
      SizeInv (drain (fun x => x) (fun _ => true) 4 [[100]] wTwoLines).1) :=
  ⟨rfl, buffer_size_invariant (fun x => x) (fun _ => true) 4 [[100]] wTwoLines [99] rfl⟩

/-- C10 (confirmed): `flush` is guarded by the byte counter, not by
buffer emptiness — it performs no send and leaves the state untouched
exactly when `buffer_size = 0`; in particular, on any size-consistent
state whose buffer is non-empty but holds only zero-length lines,
`flush` sends nothing and does not clear the buffer. -/
theorem flush_guarded_by_size (compress : List Nat → List Nat)
    (oracle : List Nat → Bool) (now : Nat) (w : DataDogHttpWriter) :
    (((flush compress oracle now w).2.1 = [] ∧ (flush compress oracle now w).1 = w) ↔
      w.buffer_size = 0) ∧
    (SizeInv w → w.buffer_lines ≠ [] → (∀ l ∈ w.buffer_lines, l.length = 0) →
      flush compress oracle now w = (w, [], .ok ())) := by
  constructor
  · constructor
    · rintro ⟨hsend, hstate⟩
      by_contra h0
      have hp : 0 < w.buffer_size := Nat.pos_of_ne_zero h0
      rcases flush_cases compress oracle now w hp with ⟨hall, heq⟩ | ⟨hall, heq⟩
      · rw [heq] at hstate
        have hproj := congrArg DataDogHttpWriter.buffer_size hstate
        dsimp at hproj
        omega
      · rw [heq] at hsend
        dsimp at hsend
        rw [hsend] at hall
        simp at hall
    · intro h0
      have hng : ¬ (0 < w.buffer_size) := by omega
      simp [flush, hng]
  · intro hinv hne hzero
    have h0 : w.buffer_size = 0 := by
      rw [hinv]
      apply List.sum_eq_zero
      intro x hx
      rcases List.mem_map.1 hx with ⟨l, hl, rfl⟩
      exact hzero l hl
    have hng : ¬ (0 < w.buffer_size) := by omega
    simp [flush, hng]

/-- Witness for C10's theorem at the empty-line buffer. -/
theorem flush_guarded_by_size_witness :
    wEmptyLine.buffer_lines ≠ [] ∧
    flush (fun x => x) (fun _ => true) 7 wEmptyLine = (wEmptyLine, [], .ok ()) :=
  ⟨by decide,
   (flush_guarded_by_size (fun x => x) (fun _ => true) 7 wEmptyLine).2 rfl
     (by decide) (by decide)⟩

end DataDogHttpWriter

namespace DataDogAdapter

/-- C7 (confirmed): shutting the adapter down twice produces no error
(shutdown never returns one — flush failures are only logged), sends at
most one final flush request on the first call, clears both channel
slots, and the second call observes the cleared slots, sends nothing,
and leaves the state cleared. -/
theorem shutdown_idempotent (e1 e2 : Option (Except Error Unit))
    (a : DataDogAdapter) :
    (shutdown e1 a).1 = ⟨false, false⟩ ∧
    (shutdown e1 a).2 ≤ 1 ∧
    shutdown e2 (shutdown e1 a).1 = (⟨false, false⟩, 0) := by
  refine ⟨rfl, ?_, rfl⟩
  show (flush false e1 a).2 ≤ 1
  rcases e1 with _ | r <;> simp [flush] <;> split_ifs <;> simp

/-- C8 (confirmed): once both channel slots are cleared by shutdown,
every subsequent write fails with `AdapterShutdownError` and enqueues
no line, and every subsequent flush fails with `AdapterShutdownError`
and sends no flush request. -/
theorem shutdown_rejects_operations (engineAlive : Bool)
    (engine : Option (Except Error Unit)) (a : DataDogAdapter) (r : LogRecord)
    (h1 : a.log_channel = false) (h2 : a.flush_channel = false) :
    write false engineAlive a r = (.error .AdapterShutdownError, []) ∧
    flush false engine a = (.error .AdapterShutdownError, 0) := by
  constructor
  · simp [write, h1]
  · simp [flush, h2]

/-- Witness for C8's theorem at the cleared adapter state. -/
theorem shutdown_rejects_operations_witness :
    (DataDogAdapter.mk false false).log_channel = false ∧
    (write false true ⟨false, false⟩ recSample =
        (.error .AdapterShutdownError, []) ∧
      flush false none (⟨false, false⟩ : DataDogAdapter) =
        (.error .AdapterShutdownError, 0)) :=
  ⟨rfl, shutdown_rejects_operations true none ⟨false, false⟩ recSample rfl rfl⟩

/-- C9 (confirmed): when the flush slot's `try_lock` fails because a
flush round-trip is already outstanding, a concurrent flush call fails
fast with the lock-contention error and sends no flush request — it
neither waits nor queues. -/
theorem flush_contention_fails_fast (engine : Option (Except Error Unit))
    (a : DataDogAdapter) :
    flush true engine a = (.error .LockError, 0) := rfl

end DataDogAdapter
